import Mathlib

/-!
Shallow embedding of `src/model.py` from maxp06/2D-Cell-Transmission-Simulation.

The simulation engine consists of three Python classes:
* `Point` — a 2-d coordinate/vector with `add` and Euclidean `distance`;
* `Cell` — one agent, with fields `location`, `direction`, `sickness`;
* `Model` — the population engine: construction with validation,
  per-tick advance, bounds enforcement, the pairwise contact scan and the
  completion query.

Python floats are embedded as exact rationals (ℚ); Python ints as ℤ/ℕ.
The distance comparison `sqrt((bx-ax)^2+(by-ay)^2) < CELL_RADIUS` is embedded
as the equivalent squared comparison `(bx-ax)^2+(by-ay)^2 < CELL_RADIUS^2`
(the equivalence over ℝ is proved below as `dist_sq_lt_iff_sqrt_lt`).
Randomness (`Model.random_location` / `Model.random_direction`) is embedded by
passing an explicit supply `rand : ℕ → Point × Point` of (location, direction)
pairs: the k-th freshly constructed cell consumes `rand k`, exactly one pair
per `Cell(...)` construction in source order.
-/

namespace CellSim

/-- Modelled from the spec: the module `projects.pj02.constants` is imported by
`src/model.py` but is not part of the given sources.  The spec (§4.2, §9)
describes the disease states as implicit sentinel values of the single integer
field that also serves as the infection counter: `infect()` sets the counter
to 0, `advance()` increments it while Infected and recovers once it exceeds
the recovery period.  We therefore take `INFECTED = 0` (so the `sickness`
field doubles as the spec's `sinceInfected` counter, as `Cell.tick` requires),
with `VULNERABLE` and `IMMUNE` distinct sentinels below the counter range. -/
def INFECTED : ℤ := 0

/-- Modelled from the spec: sentinel for the Susceptible state (see `INFECTED`). -/
def VULNERABLE : ℤ := -1

/-- Modelled from the spec: sentinel for the Immune state (see `INFECTED`). -/
def IMMUNE : ℤ := -2

/-- Modelled from the spec: the recovery period (number of ticks an agent
remains Infected before turning Immune); the spec leaves the numeric value
open, we fix a representative nonnegative value. -/
def RECOVERY_PERIOD : ℤ := 30

/-- Modelled from the spec: upper x arena bound. -/
def MAX_X : ℚ := 200

/-- Modelled from the spec: lower x arena bound. -/
def MIN_X : ℚ := -200

/-- Modelled from the spec: upper y arena bound. -/
def MAX_Y : ℚ := 200

/-- Modelled from the spec: lower y arena bound. -/
def MIN_Y : ℚ := -200

/-- Modelled from the spec: the contact radius. -/
def CELL_RADIUS : ℚ := 15

/-- Embedding of class `Point` (model.py lines 13-32): a 2-d cartesian
coordinate with float fields, floats embedded as ℚ. -/
structure Point where
  x : ℚ
  y : ℚ
  deriving DecidableEq, Repr

/-- Embedding of `Point.add` (model.py lines 23-27): componentwise sum, returning a new
point. -/
def Point.add (self other : Point) : Point :=
  { x := self.x + other.x, y := self.y + other.y }

/-- The square of `Point.distance` (model.py lines 29-32).  The source
computes `sqrt((other.x - self.x)^2 + (other.y - self.y)^2)` and only ever
compares the result against `CELL_RADIUS`; we embed the radicand so that the
comparison `distance < CELL_RADIUS` becomes `dist_sq < CELL_RADIUS^2`
(see `dist_sq_lt_iff_sqrt_lt`). -/
def Point.dist_sq (self other : Point) : ℚ :=
  (other.x - self.x) ^ 2 + (other.y - self.y) ^ 2

/-- Faithfulness of the squared-distance embedding: over the reals, the
source's comparison `sqrt(dist_sq) < CELL_RADIUS` holds iff
`dist_sq < CELL_RADIUS^2` does. -/
theorem dist_sq_lt_iff_sqrt_lt (p q : Point) :
    Real.sqrt ((p.dist_sq q : ℚ) : ℝ) < ((CELL_RADIUS : ℚ) : ℝ) ↔
      p.dist_sq q < CELL_RADIUS ^ 2 := by
  rw [Real.sqrt_lt' (by norm_num [CELL_RADIUS])]
  rw [show (((CELL_RADIUS : ℚ) : ℝ) ^ 2 = ((CELL_RADIUS ^ 2 : ℚ) : ℝ)) by push_cast; ring]
  exact Rat.cast_lt

/-- Embedding of class `Cell` (model.py lines 35-101).  The Python class
attribute `sickness: int = constants.VULNERABLE` is the constructor default;
every `Cell(...)` construction in the source produces a vulnerable cell
(see `freshCell`). -/
structure Cell where
  location : Point
  direction : Point
  sickness : ℤ
  deriving DecidableEq, Repr

/-- Embedding of `Cell.is_vulnerable` (model.py lines 71-76): `sickness == VULNERABLE`. -/
def Cell.is_vulnerable (self : Cell) : Bool :=
  self.sickness = VULNERABLE

/-- Embedding of `Cell.is_infected` (model.py lines 78-83): `sickness >= INFECTED`. -/
def Cell.is_infected (self : Cell) : Bool :=
  INFECTED ≤ self.sickness

/-- Embedding of `Cell.is_immune` (model.py lines 96-101): `sickness == IMMUNE`. -/
def Cell.is_immune (self : Cell) : Bool :=
  self.sickness = IMMUNE

/-- Embedding of `Cell.contract_disease` (model.py lines 67-69): unconditionally sets
`sickness = INFECTED`. -/
def Cell.contract_disease (self : Cell) : Cell :=
  { self with sickness := INFECTED }

/-- Embedding of `Cell.immunize` (model.py lines 92-94): unconditionally sets
`sickness = IMMUNE`. -/
def Cell.immunize (self : Cell) : Cell :=
  { self with sickness := IMMUNE }

/-- Embedding of `Cell.tick` (model.py lines 50-56): move by `direction`, increment the
counter while infected, then (reading the just-updated counter, as the source
does with its two sequential `if` statements) immunize once the counter
exceeds `RECOVERY_PERIOD`. -/
def Cell.tick (self : Cell) : Cell :=
  let moved : Cell := { self with location := self.location.add self.direction }
  let counted : Cell :=
    if moved.is_infected then { moved with sickness := moved.sickness + 1 } else moved
  if RECOVERY_PERIOD < counted.sickness then counted.immunize else counted

/-- Embedding of `Cell.contact_with` (model.py lines 85-90).  Python mutates `self` and
`other` in place; the embedding returns the pair (updated self, updated
other).  As in the source, the second `if` reads the possibly already-updated
state of `other` from the first `if`. -/
def Cell.contact_with (self other : Cell) : Cell × Cell :=
  let other2 : Cell :=
    if self.is_infected && other.is_vulnerable then other.contract_disease else other
  let self2 : Cell :=
    if self.is_vulnerable && other2.is_infected then self.contract_disease else self
  (self2, other2)

/-- A cell as produced by every `Cell(location, direction)` construction in
`src/model.py`: the `sickness` class attribute defaults to `VULNERABLE`. -/
def freshCell (pd : Point × Point) : Cell :=
  { location := pd.1, direction := pd.2, sickness := VULNERABLE }

/-- Default cell used only to totalize list indexing in positions that are
provably in bounds. -/
def defCell : Cell :=
  { location := { x := 0, y := 0 }, direction := { x := 0, y := 0 }, sickness := VULNERABLE }

/-- The two kinds of runtime failure `Model.__init__` can produce: the
explicit `ValueError` raises (model.py lines 113-116) and Python's
`IndexError` from `self.population[i]` when the index is out of range. -/
inductive InitError where
  | invalidConfig (msg : String) : InitError
  | indexError : InitError
  deriving DecidableEq, Repr

/-- Embedding of `self.population[i].contract_disease()` (model.py line 123): index the
population (an `IndexError` if out of range — the index is always ≥ 0 here)
and infect the cell at that index in place. -/
def infectAt (pop : List Cell) (i : ℕ) : Except InitError (List Cell) :=
  if h : i < pop.length then
    Except.ok (pop.set i (pop.get ⟨i, h⟩).contract_disease)
  else
    Except.error InitError.indexError

/-- Embedding of `self.population[j + ninfected].immunize()` (model.py line 128), same
indexing semantics as `infectAt`. -/
def immunizeAt (pop : List Cell) (i : ℕ) : Except InitError (List Cell) :=
  if h : i < pop.length then
    Except.ok (pop.set i (pop.get ⟨i, h⟩).immunize)
  else
    Except.error InitError.indexError

/-- First `__init__` loop (model.py lines 118-121): append
`cells - ninfected - nimmune` fresh vulnerable cells.  Each fresh cell
consumes the next (location, direction) pair from the random supply; the
number of pairs consumed so far always equals the current population
length, hence the index `rand pop.length`. -/
def initLoop1 (rand : ℕ → Point × Point) : ℕ → List Cell → List Cell
  | 0, pop => pop
  | t + 1, pop => initLoop1 rand t (pop ++ [freshCell (rand pop.length)])

/-- Second `__init__` loop (model.py lines 122-126): for `i` in
`range(0, ninfected)`, infect `population[i]` then append a fresh cell. -/
def initLoop2 (rand : ℕ → Point × Point) : ℕ → ℕ → List Cell → Except InitError (List Cell)
  | _, 0, pop => Except.ok pop
  | i, c + 1, pop =>
    match infectAt pop i with
    | Except.error e => Except.error e
    | Except.ok pop2 => initLoop2 rand (i + 1) c (pop2 ++ [freshCell (rand pop2.length)])

/-- Third `__init__` loop (model.py lines 127-131): for `j` in
`range(0, nimmune)`, immunize `population[j + ninfected]` then append a fresh
cell. -/
def initLoop3 (rand : ℕ → Point × Point) (base : ℕ) :
    ℕ → ℕ → List Cell → Except InitError (List Cell)
  | _, 0, pop => Except.ok pop
  | j, c + 1, pop =>
    match immunizeAt pop (j + base) with
    | Except.error e => Except.error e
    | Except.ok pop2 => initLoop3 rand base (j + 1) c (pop2 ++ [freshCell (rand pop2.length)])

/-- Embedding of class `Model` (model.py lines 104-189): the population and
the time counter (a class attribute starting at 0). -/
structure Model where
  population : List Cell
  time : ℕ
  deriving DecidableEq, Repr

/-- Embedding of `Model.__init__` (model.py lines 110-131).  The two validation `if`s run
before any cell is constructed; on success the three loops build the
population.  Python `range(0, n)` over an `int` is empty for `n ≤ 0`, hence
`Int.toNat` for the loop trip counts. -/
def Model.init (cells ninfected nimmune : ℤ) (rand : ℕ → Point × Point) :
    Except InitError Model :=
  if cells ≤ ninfected ∨ ninfected ≤ 0 then
    Except.error (InitError.invalidConfig "Some number of the Cell objects must begin infected.")
  else if cells ≤ nimmune ∨ nimmune < 0 then
    Except.error (InitError.invalidConfig "Improper number of immune or infected cells.")
  else
    match initLoop2 rand 0 ninfected.toNat
        (initLoop1 rand (cells - ninfected - nimmune).toNat []) with
    | Except.error e => Except.error e
    | Except.ok pop2 =>
      match initLoop3 rand ninfected.toNat 0 nimmune.toNat pop2 with
      | Except.error e => Except.error e
      | Except.ok pop3 => Except.ok { population := pop3, time := 0 }

/-- Embedding of `Model.enforce_bounds` (model.py lines 154-167): the four sequential
clamp-and-reflect `if`s, in source order (x-upper, y-upper, x-lower,
y-lower), each reading the state left by the previous one. -/
def Model.enforce_bounds (cell : Cell) : Cell :=
  let c1 : Cell :=
    if MAX_X < cell.location.x then
      { cell with location := { cell.location with x := MAX_X },
                  direction := { cell.direction with x := cell.direction.x * (-1) } }
    else cell
  let c2 : Cell :=
    if MAX_Y < c1.location.y then
      { c1 with location := { c1.location with y := MAX_Y },
                direction := { c1.direction with y := c1.direction.y * (-1) } }
    else c1
  let c3 : Cell :=
    if c2.location.x < MIN_X then
      { c2 with location := { c2.location with x := MIN_X },
                direction := { c2.direction with x := c2.direction.x * (-1) } }
    else c2
  if c3.location.y < MIN_Y then
    { c3 with location := { c3.location with y := MIN_Y },
              direction := { c3.direction with y := c3.direction.y * (-1) } }
  else c3

/-- One inner-loop iteration of `Model.check_contacts` (model.py lines
174-179): compare the distance of cells `i` and `j` of the current
population against `CELL_RADIUS` and, unless the two list slots hold the
same object (the population never aliases, so Python's identity test
`population[j] != population[i]` is exactly `i ≠ j`), resolve contact,
writing both updated cells back in place.  The returned trace records each
pair `(i, j)` on which `contact_with` was invoked. -/
def contactStep (pop : List Cell) (acc : List (ℕ × ℕ)) (i j : ℕ) :
    List Cell × List (ℕ × ℕ) :=
  let dsq : ℚ := Point.dist_sq (pop.getD i defCell).location (pop.getD j defCell).location
  if i = j then (pop, acc)
  else if dsq < CELL_RADIUS ^ 2 then
    let r := Cell.contact_with (pop.getD i defCell) (pop.getD j defCell)
    ((pop.set i r.1).set j r.2, acc ++ [(i, j)])
  else (pop, acc)

/-- Inner `for j in range(1, len(population))` loop of `check_contacts`. -/
def scanInner (i : ℕ) : List ℕ → List Cell × List (ℕ × ℕ) → List Cell × List (ℕ × ℕ)
  | [], st => st
  | j :: js, st => scanInner i js (contactStep st.1 st.2 i j)

/-- Outer `while i < len(population)` loop of `check_contacts`.  The
population length is constant throughout the scan (contact resolution never
adds or removes cells), so both loop bounds are the initial length `n`. -/
def scanOuter (n : ℕ) : List ℕ → List Cell × List (ℕ × ℕ) → List Cell × List (ℕ × ℕ)
  | [], st => st
  | i :: rest, st => scanOuter n rest (scanInner i (List.range' 1 (n - 1)) st)

/-- Embedding of `Model.check_contacts` (model.py lines 169-180), instrumented with the
trace of pairs on which `contact_with` is invoked.  `range(1, n)` is
`List.range' 1 (n - 1)`. -/
def Model.check_contacts (pop : List Cell) : List Cell × List (ℕ × ℕ) :=
  scanOuter pop.length (List.range pop.length) (pop, [])

/-- Embedding of `Model.tick` (model.py lines 133-139): increment `time`; for each cell in
sequence, `cell.tick()` then `enforce_bounds(cell)` (each loop iteration
touches only that cell, so the in-place loop is a map); then
`check_contacts()`. -/
def Model.tick (m : Model) : Model :=
  let moved : List Cell := m.population.map fun c => Model.enforce_bounds (Cell.tick c)
  { population := (Model.check_contacts moved).1, time := m.time + 1 }

/-- Embedding of the `while` loop of `Model.is_complete` (model.py lines 184-188): return
`false` at the first infected cell, `true` past the end. -/
def isCompleteLoop : List Cell → Bool
  | [] => true
  | c :: rest => if c.is_infected then false else isCompleteLoop rest

/-- Embedding of `Model.is_complete` (model.py lines 182-189).  The source method only
reads `self.population`; the embedding is accordingly a pure function. -/
def Model.is_complete (m : Model) : Bool :=
  isCompleteLoop m.population

/-- The single-step evolution of the `sickness` field under `Cell.tick`,
factored out of the positional update. -/
def sickStep (s : ℤ) : ℤ :=
  let s2 : ℤ := if INFECTED ≤ s then s + 1 else s
  if RECOVERY_PERIOD < s2 then IMMUNE else s2

theorem tick_sickness (c : Cell) : (Cell.tick c).sickness = sickStep c.sickness := by
  simp only [Cell.tick, Cell.immunize, Cell.is_infected, sickStep, decide_eq_true_eq]
  split_ifs <;> rfl

theorem tick_location (c : Cell) : (Cell.tick c).location = c.location.add c.direction := by
  simp only [Cell.tick, Cell.immunize]
  split_ifs <;> rfl

theorem tick_direction (c : Cell) : (Cell.tick c).direction = c.direction := by
  simp only [Cell.tick, Cell.immunize]
  split_ifs <;> rfl

theorem iterate_tick_sickness (c : Cell) (n : ℕ) :
    (Cell.tick^[n] c).sickness = sickStep^[n] c.sickness := by
  induction n with
  | zero => rfl
  | succ n ih =>
    rw [Function.iterate_succ_apply', Function.iterate_succ_apply', tick_sickness, ih]

theorem sickStep_counter (n : ℕ) (h : (n : ℤ) ≤ RECOVERY_PERIOD) :
    sickStep^[n] INFECTED = (n : ℤ) := by
  induction n with
  | zero => rfl
  | succ n ih =>
    have hn : (n : ℤ) ≤ RECOVERY_PERIOD := by push_cast at h ⊢; omega
    rw [Function.iterate_succ_apply', ih hn]
    simp only [sickStep, INFECTED, RECOVERY_PERIOD] at h ⊢
    have h0 : (0 : ℤ) ≤ (n : ℤ) := Int.natCast_nonneg n
    push_cast at h ⊢
    split_ifs <;> omega

theorem sickStep_immune : sickStep IMMUNE = IMMUNE := by decide

theorem sickStep_past (n : ℕ) (h : RECOVERY_PERIOD < (n : ℤ)) :
    sickStep^[n] INFECTED = IMMUNE := by
  induction n with
  | zero => simp [RECOVERY_PERIOD] at h
  | succ n ih =>
    rw [Function.iterate_succ_apply']
    by_cases hn : RECOVERY_PERIOD < (n : ℤ)
    · rw [ih hn, sickStep_immune]
    · have heq : (n : ℤ) = RECOVERY_PERIOD := by push_cast at h hn ⊢; omega
      rw [sickStep_counter n (le_of_eq heq), heq]
      simp only [sickStep, INFECTED, RECOVERY_PERIOD, IMMUNE]
      norm_num

/-- The complete `sickness` trajectory of a cell infected by
`contract_disease` and then ticked `n` times with no further contact. -/
theorem infected_sickness_trajectory (c : Cell) (n : ℕ) :
    (Cell.tick^[n] c.contract_disease).sickness =
      if (n : ℤ) ≤ RECOVERY_PERIOD then (n : ℤ) else IMMUNE := by
  rw [iterate_tick_sickness]
  simp only [Cell.contract_disease]
  split_ifs with h
  · exact sickStep_counter n h
  · exact sickStep_past n (by omega)

/-- Claim C2: a cell infected via `contract_disease` and then advanced by
repeated `Cell.tick` calls with no further contact becomes Immune exactly on
the first tick at which its time since infection (the counter `sickness`,
reset to `INFECTED = 0` on infection and incremented once per tick while
infected) exceeds `RECOVERY_PERIOD`, and not one tick earlier: after `n`
ticks the cell is Immune iff `RECOVERY_PERIOD < n`, and still Infected iff
`n ≤ RECOVERY_PERIOD`.  `Cell.tick` is the only operation whose definition
compares the counter against `RECOVERY_PERIOD`. -/
theorem recovery_timing (c : Cell) (n : ℕ) :
    ((Cell.tick^[n] c.contract_disease).is_immune = true ↔ RECOVERY_PERIOD < (n : ℤ)) ∧
    ((Cell.tick^[n] c.contract_disease).is_infected = true ↔ (n : ℤ) ≤ RECOVERY_PERIOD) := by
  have htr := infected_sickness_trajectory c n
  have h0 : (0 : ℤ) ≤ (n : ℤ) := Int.natCast_nonneg n
  rw [show RECOVERY_PERIOD = (30 : ℤ) from rfl, show IMMUNE = (-2 : ℤ) from rfl] at htr
  constructor
  · simp only [Cell.is_immune, decide_eq_true_eq, htr,
      show IMMUNE = (-2 : ℤ) from rfl, show RECOVERY_PERIOD = (30 : ℤ) from rfl]
    split_ifs with h <;> constructor <;> intro hh <;> first | omega | exact hh.elim
  · simp only [Cell.is_infected, decide_eq_true_eq, htr,
      show INFECTED = (0 : ℤ) from rfl, show RECOVERY_PERIOD = (30 : ℤ) from rfl]
    split_ifs with h <;> constructor <;> intro hh <;> first | omega | exact hh.elim

/-- The three per-cell operations of claim C3 that can reach a given cell
after construction: its own `tick`, a `contact_with` call with the cell as
`self`, and a `contact_with` call with the cell as `other`. -/
inductive CellOp where
  | tickOp : CellOp
  | contactSelf (other : Cell) : CellOp
  | contactOther (other : Cell) : CellOp

/-- Apply one `CellOp` to a cell, keeping that cell's updated state. -/
def applyOp (c : Cell) : CellOp → Cell
  | CellOp.tickOp => c.tick
  | CellOp.contactSelf o => (c.contact_with o).1
  | CellOp.contactOther o => (o.contact_with c).2

theorem tick_keeps_immune (c : Cell) (h : c.is_immune = true) :
    (Cell.tick c).is_immune = true := by
  simp only [Cell.is_immune, decide_eq_true_eq] at h ⊢
  rw [tick_sickness, h, sickStep_immune]

theorem contact_self_keeps_immune (c o : Cell) (h : c.is_immune = true) :
    ((c.contact_with o).1).is_immune = true := by
  have hs : c.sickness = IMMUNE := by simpa [Cell.is_immune] using h
  simp only [Cell.contact_with, Cell.is_vulnerable, hs, IMMUNE, VULNERABLE]
  norm_num
  exact h

theorem contact_other_keeps_immune (c o : Cell) (h : c.is_immune = true) :
    ((o.contact_with c).2).is_immune = true := by
  have hs : c.sickness = IMMUNE := by simpa [Cell.is_immune] using h
  simp only [Cell.contact_with, Cell.is_vulnerable, hs, IMMUNE, VULNERABLE]
  norm_num
  exact h

/-- Claim C3 (amended): once a cell is Immune, no sequence of `Cell.tick`
calls and `contact_with` calls (with the cell in either argument position,
against arbitrary partners, in any order) leaves it in a state other than
Immune.  The original claim also listed `contract_disease`, which the code
contradicts: `contract_disease` unconditionally re-infects (see
`contract_disease_reinfects_immune`); within the engine it is only invoked
through `contact_with`, gated on `is_vulnerable`. -/
theorem immune_terminal (c : Cell) (h : c.is_immune = true) (ops : List CellOp) :
    (ops.foldl applyOp c).is_immune = true := by
  induction ops generalizing c with
  | nil => exact h
  | cons op rest ih =>
    rw [List.foldl_cons]
    apply ih
    cases op with
    | tickOp => exact tick_keeps_immune c h
    | contactSelf o => exact contact_self_keeps_immune c o h
    | contactOther o => exact contact_other_keeps_immune c o h

/-- Witness for `immune_terminal` at a concrete immune cell and a concrete
operation sequence. -/
theorem immune_terminal_witness :
    (([CellOp.tickOp, CellOp.contactSelf (defCell.contract_disease),
       CellOp.contactOther (defCell.contract_disease),
       CellOp.tickOp].foldl applyOp defCell.immunize)).is_immune = true :=
  immune_terminal defCell.immunize (by decide) _

/-- Counterexample to claim C3 as stated: `contract_disease` (the source's
`infect`) applied to an Immune cell leaves it Infected, not Immune, so
Immune is not terminal under direct `contract_disease` calls. -/
theorem contract_disease_reinfects_immune :
    (defCell.immunize).is_immune = true ∧
    ((defCell.immunize).contract_disease).is_immune = false ∧
    ((defCell.immunize).contract_disease).is_infected = true := by
  decide

/-- The spec's description of `resolveContactWith` (§4.2): both transmission
checks read the *pre-contact* state of both agents.  This definition follows
the spec's words and is compared against the source-derived
`Cell.contact_with` in `contact_transmission`. -/
def contactWithPre (self other : Cell) : Cell × Cell :=
  (if self.is_vulnerable && other.is_infected then self.contract_disease else self,
   if self.is_infected && other.is_vulnerable then other.contract_disease else other)

/-- Claim C6: `contact_with` behaves as if both branch conditions were
evaluated on the pre-contact states (it equals `contactWithPre`); when
exactly one cell is Infected and the other Vulnerable the vulnerable one is
infected and the other unchanged, in either argument order; and when no
infected/vulnerable cross-condition holds on the pre-contact states, neither
cell changes. -/
theorem contact_transmission (a b : Cell) :
    (Cell.contact_with a b = contactWithPre a b) ∧
    (a.is_infected = true → b.is_vulnerable = true →
      Cell.contact_with a b = (a, b.contract_disease)) ∧
    (a.is_vulnerable = true → b.is_infected = true →
      Cell.contact_with a b = (a.contract_disease, b)) ∧
    (¬(a.is_infected = true ∧ b.is_vulnerable = true) →
      ¬(a.is_vulnerable = true ∧ b.is_infected = true) →
      Cell.contact_with a b = (a, b)) := by
  simp only [Cell.contact_with, contactWithPre, Cell.is_infected, Cell.is_vulnerable,
    Cell.contract_disease, INFECTED, VULNERABLE, Bool.and_eq_true, decide_eq_true_eq,
    not_and]
  by_cases ha1 : (0 : ℤ) ≤ a.sickness <;>
    by_cases ha2 : a.sickness = (-1 : ℤ) <;>
      by_cases hb1 : (0 : ℤ) ≤ b.sickness <;>
        by_cases hb2 : b.sickness = (-1 : ℤ) <;>
          simp_all <;> omega

/-- Witness for `contact_transmission`: a concrete infected `self` meeting a
concrete vulnerable `other` infects it and is itself unchanged. -/
theorem contact_transmission_witness :
    Cell.contact_with defCell.contract_disease defCell =
      (defCell.contract_disease, defCell.contract_disease) :=
  (contact_transmission defCell.contract_disease defCell).2.1 (by decide) (by decide)

/-- Claim C8: a cell sitting exactly at the upper x-bound with strictly
positive x-velocity, after one `Cell.tick` followed by
`Model.enforce_bounds`, is back at `location.x = MAX_X` with its
x-velocity sign flipped to strictly negative; the y-axis clamping acts
independently and cannot disturb the x fields. -/
theorem bounds_reflection (c : Cell) (hx : c.location.x = MAX_X)
    (hd : 0 < c.direction.x) :
    (Model.enforce_bounds (Cell.tick c)).location.x = MAX_X ∧
    (Model.enforce_bounds (Cell.tick c)).direction.x < 0 := by
  have hloc := tick_location c
  have hdir := tick_direction c
  have hxv : (Cell.tick c).location.x = MAX_X + c.direction.x := by
    rw [hloc, Point.add, hx]
  have hdv : (Cell.tick c).direction.x = c.direction.x := by rw [hdir]
  simp only [Model.enforce_bounds]
  split_ifs <;>
    simp_all [MAX_X, MIN_X] <;>
      nlinarith

/-- Witness for `bounds_reflection` at a concrete cell on the bound. -/
theorem bounds_reflection_witness :
    (Model.enforce_bounds (Cell.tick
        { location := { x := MAX_X, y := 0 }, direction := { x := 1, y := 0 },
          sickness := VULNERABLE })).location.x = MAX_X ∧
    (Model.enforce_bounds (Cell.tick
        { location := { x := MAX_X, y := 0 }, direction := { x := 1, y := 0 },
          sickness := VULNERABLE })).direction.x < 0 :=
  bounds_reflection _ rfl (by norm_num)

/-- Claim C9: `is_complete` returns `true` iff no cell of the population is
infected.  The source method only reads the population (no assignment
statements), so the embedding is a pure function of the model: calling it
mutates nothing and it is meaningful at any time, including before any
tick. -/
theorem is_complete_iff_no_infected (m : Model) :
    Model.is_complete m = true ↔ ∀ c ∈ m.population, c.is_infected = false := by
  show isCompleteLoop m.population = true ↔ _
  induction m.population with
  | nil => simp [isCompleteLoop]
  | cons c rest ih =>
    by_cases hc : c.is_infected
    · simp [isCompleteLoop, hc]
    · simp only [Bool.not_eq_true] at hc
      simp [isCompleteLoop, hc, ih]

theorem dist_sq_comm (p q : Point) : p.dist_sq q = q.dist_sq p := by
  simp only [Point.dist_sq]; ring

theorem set_getD_self {α : Type} (l : List α) (i : ℕ) (d : α) :
    l.set i (l.getD i d) = l := by
  induction l generalizing i with
  | nil => rfl
  | cons a t ih =>
    cases i with
    | zero => rfl
    | succ i =>
      show a :: t.set i (t.getD i d) = a :: t
      rw [ih]

theorem contact_with_preserves_motion (a b : Cell) :
    (Cell.contact_with a b).1.location = a.location ∧
    (Cell.contact_with a b).1.direction = a.direction ∧
    (Cell.contact_with a b).2.location = b.location ∧
    (Cell.contact_with a b).2.direction = b.direction := by
  simp only [Cell.contact_with, Cell.contract_disease]
  split_ifs <;> simp

/-- The contact scan only rewrites `sickness`: the list of locations is
untouched by a single `contactStep`. -/
theorem contactStep_map_location (pop : List Cell) (acc : List (ℕ × ℕ)) (i j : ℕ) :
    ((contactStep pop acc i j).1).map Cell.location = pop.map Cell.location := by
  simp only [contactStep]
  split_ifs with h1 h2
  · rfl
  · have m := contact_with_preserves_motion (pop.getD i defCell) (pop.getD j defCell)
    rw [List.map_set, List.map_set, m.1, m.2.2.1,
      ← List.getD_map pop defCell Cell.location,
      ← List.getD_map pop defCell Cell.location,
      set_getD_self, set_getD_self]
  · rfl

theorem scanInner_map_location (i : ℕ) (js : List ℕ) (st : List Cell × List (ℕ × ℕ)) :
    ((scanInner i js st).1).map Cell.location = st.1.map Cell.location := by
  induction js generalizing st with
  | nil => rfl
  | cons j rest ih =>
    rw [scanInner, ih, contactStep_map_location]

theorem scanOuter_map_location (n : ℕ) (is : List ℕ) (st : List Cell × List (ℕ × ℕ)) :
    ((scanOuter n is st).1).map Cell.location = st.1.map Cell.location := by
  induction is generalizing st with
  | nil => rfl
  | cons i rest ih =>
    rw [scanOuter, ih, scanInner_map_location]

/-- The contact scan never moves a cell: the population's locations after
`check_contacts` are those it was called with. -/
theorem check_contacts_map_location (pop : List Cell) :
    ((Model.check_contacts pop).1).map Cell.location = pop.map Cell.location := by
  rw [Model.check_contacts, scanOuter_map_location]

theorem contactStep_acc_mem (pop : List Cell) (acc : List (ℕ × ℕ)) (i j : ℕ)
    (p : ℕ × ℕ) (h : p ∈ acc) : p ∈ (contactStep pop acc i j).2 := by
  simp only [contactStep]
  split_ifs <;> simp [h]

theorem scanInner_acc_mem (i : ℕ) (js : List ℕ) (st : List Cell × List (ℕ × ℕ))
    (p : ℕ × ℕ) (h : p ∈ st.2) : p ∈ (scanInner i js st).2 := by
  induction js generalizing st with
  | nil => exact h
  | cons j rest ih =>
    rw [scanInner]
    exact ih _ (contactStep_acc_mem _ _ _ _ _ h)

theorem scanOuter_acc_mem (n : ℕ) (is : List ℕ) (st : List Cell × List (ℕ × ℕ))
    (p : ℕ × ℕ) (h : p ∈ st.2) : p ∈ (scanOuter n is st).2 := by
  induction is generalizing st with
  | nil => exact h
  | cons i rest ih =>
    rw [scanOuter]
    exact ih _ (scanInner_acc_mem _ _ _ _ h)

theorem contactStep_records (pop : List Cell) (acc : List (ℕ × ℕ)) (i j : ℕ)
    (hne : i ≠ j)
    (hd : Point.dist_sq ((pop.getD i defCell).location) ((pop.getD j defCell).location) <
      CELL_RADIUS ^ 2) :
    (i, j) ∈ (contactStep pop acc i j).2 := by
  simp only [contactStep]
  rw [if_neg hne, if_pos hd]
  simp

theorem scanInner_covers (i : ℕ) (L : List Point) (j : ℕ) (js : List ℕ)
    (st : List Cell × List (ℕ × ℕ))
    (hL : st.1.map Cell.location = L) (hj : j ∈ js) (hne : i ≠ j)
    (hd : Point.dist_sq (L.getD i defCell.location) (L.getD j defCell.location) <
      CELL_RADIUS ^ 2) :
    (i, j) ∈ (scanInner i js st).2 := by
  induction js generalizing st with
  | nil => cases hj
  | cons j0 rest ih =>
    rw [scanInner]
    rcases List.mem_cons.mp hj with rfl | hj'
    · apply scanInner_acc_mem
      apply contactStep_records _ _ _ _ hne
      rw [show (st.1.getD i defCell).location =
            ((st.1.map Cell.location).getD i defCell.location) from
          (List.getD_map st.1 defCell Cell.location).symm,
        show (st.1.getD j defCell).location =
            ((st.1.map Cell.location).getD j defCell.location) from
          (List.getD_map st.1 defCell Cell.location).symm, hL]
      exact hd
    · exact ih _ (by rw [contactStep_map_location, hL]) hj'

theorem scanOuter_covers (n : ℕ) (L : List Point) (i j : ℕ) (is : List ℕ)
    (st : List Cell × List (ℕ × ℕ))
    (hL : st.1.map Cell.location = L) (hi : i ∈ is) (hj : j ∈ List.range' 1 (n - 1))
    (hne : i ≠ j)
    (hd : Point.dist_sq (L.getD i defCell.location) (L.getD j defCell.location) <
      CELL_RADIUS ^ 2) :
    (i, j) ∈ (scanOuter n is st).2 := by
  induction is generalizing st with
  | nil => cases hi
  | cons i0 rest ih =>
    rw [scanOuter]
    rcases List.mem_cons.mp hi with rfl | hi'
    · exact scanOuter_acc_mem _ _ _ _ (scanInner_covers i L j _ st hL hj hne hd)
    · exact ih _ (by rw [scanInner_map_location, hL]) hi'

theorem contactStep_acc_ne (pop : List Cell) (acc : List (ℕ × ℕ)) (i j : ℕ)
    (h : ∀ p ∈ acc, p.1 ≠ p.2) : ∀ p ∈ (contactStep pop acc i j).2, p.1 ≠ p.2 := by
  simp only [contactStep]
  split_ifs with h1 h2
  · exact h
  · intro p hp
    rcases List.mem_append.mp hp with hp' | hp'
    · exact h p hp'
    · rcases List.mem_singleton.mp hp' with rfl
      exact h1
  · exact h

theorem scanInner_acc_ne (i : ℕ) (js : List ℕ) (st : List Cell × List (ℕ × ℕ))
    (h : ∀ p ∈ st.2, p.1 ≠ p.2) : ∀ p ∈ (scanInner i js st).2, p.1 ≠ p.2 := by
  induction js generalizing st with
  | nil => exact h
  | cons j rest ih =>
    rw [scanInner]
    exact ih _ (contactStep_acc_ne _ _ _ _ h)

theorem scanOuter_acc_ne (n : ℕ) (is : List ℕ) (st : List Cell × List (ℕ × ℕ))
    (h : ∀ p ∈ st.2, p.1 ≠ p.2) : ∀ p ∈ (scanOuter n is st).2, p.1 ≠ p.2 := by
  induction is generalizing st with
  | nil => exact h
  | cons i rest ih =>
    rw [scanOuter]
    exact ih _ (scanInner_acc_ne _ _ _ h)

/-- Claim C5: in every `check_contacts` call, every pair of distinct
population indices whose cells are within `CELL_RADIUS` of each other has
`contact_with` invoked on it at least once, in some argument order (no index
position excludes a cell as source or target: the pair `{0, b}` is reached
with `0` as the outer index even though the inner range starts at 1); and
`contact_with` is never invoked on a cell paired with itself. -/
theorem contact_scan_coverage (pop : List Cell) :
    (∀ a b : ℕ, a < pop.length → b < pop.length → a ≠ b →
      Point.dist_sq ((pop.getD a defCell).location) ((pop.getD b defCell).location) <
        CELL_RADIUS ^ 2 →
      ((a, b) ∈ (Model.check_contacts pop).2 ∨ (b, a) ∈ (Model.check_contacts pop).2)) ∧
    (∀ i : ℕ, (i, i) ∉ (Model.check_contacts pop).2) := by
  constructor
  · intro a b ha hb hne hd
    have hdL : Point.dist_sq
        (((pop.map Cell.location).getD a defCell.location))
        (((pop.map Cell.location).getD b defCell.location)) < CELL_RADIUS ^ 2 := by
      rw [List.getD_map pop defCell Cell.location, List.getD_map pop defCell Cell.location]
      exact hd
    rcases Nat.eq_zero_or_pos b with rfl | hb1
    · right
      have ha1 : 1 ≤ a := Nat.one_le_iff_ne_zero.mpr hne
      apply scanOuter_covers pop.length (pop.map Cell.location) 0 a _ _ rfl
      · exact List.mem_range.mpr hb
      · have : ∃ k < pop.length - 1, a = 1 + 1 * k := ⟨a - 1, by omega, by omega⟩
        exact List.mem_range'.mpr this
      · omega
      · rw [List.getD_map pop defCell Cell.location, List.getD_map pop defCell Cell.location,
          dist_sq_comm]
        exact hd
    · left
      apply scanOuter_covers pop.length (pop.map Cell.location) a b _ _ rfl
      · exact List.mem_range.mpr ha
      · have : ∃ k < pop.length - 1, b = 1 + 1 * k := ⟨b - 1, by omega, by omega⟩
        exact List.mem_range'.mpr this
      · exact hne
      · exact hdL
  · intro i hmem
    have := scanOuter_acc_ne pop.length (List.range pop.length) (pop, [])
      (by intro p hp; cases hp) (i, i) hmem
    exact this rfl

/-- Witness population for `contact_scan_coverage`: two cells 5 apart,
within the contact radius. -/
def coveragePop : List Cell :=
  [ { location := { x := 0, y := 0 }, direction := { x := 0, y := 0 },
      sickness := INFECTED },
    { location := { x := 5, y := 0 }, direction := { x := 0, y := 0 },
      sickness := VULNERABLE } ]

/-- Witness for `contact_scan_coverage` on a concrete two-cell population. -/
theorem contact_scan_coverage_witness :
    (0, 1) ∈ (Model.check_contacts coveragePop).2 ∨
    (1, 0) ∈ (Model.check_contacts coveragePop).2 :=
  (contact_scan_coverage coveragePop).1 0 1 (by norm_num [coveragePop]) (by norm_num [coveragePop])
    (by norm_num) (by norm_num [coveragePop, defCell, Point.dist_sq, CELL_RADIUS])

/-- Claim C7: `Model.tick` increments `time` by exactly one; the population
it produces is obtained by first moving and bounds-correcting every cell
(`Cell.tick` then `enforce_bounds`, per cell in sequence) and only then
running `check_contacts` on the fully moved-and-clamped population; and
contact resolution itself moves nothing, so the final locations are exactly
the post-move, post-clamp locations of the current tick.  `time` is touched
by no other engine operation: `enforce_bounds`, `check_contacts` and the
`Cell` methods do not take or return the model, and `is_complete` is a pure
read. -/
theorem tick_order_and_time (m : Model) :
    (Model.tick m).time = m.time + 1 ∧
    (Model.tick m).population =
      (Model.check_contacts
        (m.population.map fun c => Model.enforce_bounds (Cell.tick c))).1 ∧
    (Model.tick m).population.map Cell.location =
      (m.population.map fun c => Model.enforce_bounds (Cell.tick c)).map Cell.location := by
  refine ⟨rfl, rfl, ?_⟩
  exact check_contacts_map_location _

/-- The concrete three-cell chain population of claim C10: cell 0 is
Infected, cells 1 and 2 are Vulnerable; cells 0-1 and 1-2 are within the
contact radius (distance 10 < 15) while cells 0 and 2 are not (distance
20 ≥ 15). -/
def chainPop : List Cell :=
  [ { location := { x := 0, y := 0 }, direction := { x := 0, y := 0 },
      sickness := INFECTED },
    { location := { x := 10, y := 0 }, direction := { x := 0, y := 0 },
      sickness := VULNERABLE },
    { location := { x := 20, y := 0 }, direction := { x := 0, y := 0 },
      sickness := VULNERABLE } ]

/-- Full evaluation of one `check_contacts` call on `chainPop`: cell 0
infects cell 1 at pair (0,1); cell 1 — vulnerable at the start of the call,
infected during it — then infects cell 2 at pair (1,2). -/
theorem check_contacts_chainPop :
    Model.check_contacts chainPop =
    ( [ { location := { x := 0, y := 0 }, direction := { x := 0, y := 0 },
          sickness := INFECTED },
        { location := { x := 10, y := 0 }, direction := { x := 0, y := 0 },
          sickness := INFECTED },
        { location := { x := 20, y := 0 }, direction := { x := 0, y := 0 },
          sickness := INFECTED } ],
      [(0, 1), (1, 2), (2, 1)] ) := by
  norm_num [chainPop, Model.check_contacts, scanOuter, scanInner, contactStep,
    Point.dist_sq, CELL_RADIUS, Cell.contact_with, Cell.is_infected, Cell.is_vulnerable,
    Cell.contract_disease, INFECTED, VULNERABLE, defCell, List.range', List.range,
    List.range.loop]

/-- Claim C10: there is a population state (`chainPop`) in which a cell that
is Vulnerable at the start of a single `check_contacts` call (cell 1) both
becomes Infected during that call and then infects another vulnerable cell
(cell 2) later in the same call: cell 2 is out of range of the only
initially infected cell (cell 0) and the pair (0,2)/(2,0) is never invoked,
yet cell 2 ends the call Infected — the scan reads each cell's current,
possibly already-updated-this-scan state, not a start-of-tick snapshot. -/
theorem chain_propagation_within_one_scan :
    (chainPop.getD 1 defCell).is_vulnerable = true ∧
    (chainPop.getD 2 defCell).is_vulnerable = true ∧
    CELL_RADIUS ^ 2 ≤
      Point.dist_sq ((chainPop.getD 0 defCell).location) ((chainPop.getD 2 defCell).location) ∧
    (0, 2) ∉ (Model.check_contacts chainPop).2 ∧
    (2, 0) ∉ (Model.check_contacts chainPop).2 ∧
    ((Model.check_contacts chainPop).1.getD 1 defCell).is_infected = true ∧
    ((Model.check_contacts chainPop).1.getD 2 defCell).is_infected = true := by
  rw [check_contacts_chainPop]
  refine ⟨by norm_num [chainPop, Cell.is_vulnerable], by norm_num [chainPop, Cell.is_vulnerable],
    by norm_num [chainPop, Point.dist_sq, CELL_RADIUS, defCell], by decide, by decide,
    by norm_num [Cell.is_infected, INFECTED], by norm_num [Cell.is_infected, INFECTED]⟩

theorem initLoop1_map_sickness (rand : ℕ → Point × Point) :
    ∀ (t : ℕ) (pop : List Cell),
      (initLoop1 rand t pop).map Cell.sickness =
        pop.map Cell.sickness ++ List.replicate t VULNERABLE := by
  intro t
  induction t with
  | zero => intro pop; simp [initLoop1]
  | succ t ih =>
    intro pop
    rw [initLoop1, ih, List.map_append]
    simp [freshCell, List.replicate_succ, List.append_assoc]

/-- In-place update at the first slot of the vulnerable suffix, followed by
appending one fresh vulnerable cell: the layout shifts by one. -/
theorem layout_step {α : Type} (P : List α) (i b' : ℕ) (hi : i = P.length) (v x : α) :
    ((P ++ List.replicate (b' + 1) v).set i x) ++ [v] =
      (P ++ [x]) ++ List.replicate (b' + 1) v := by
  subst hi
  rw [List.set_append, if_neg (by omega), Nat.sub_self, List.replicate_succ,
    List.set_cons_zero, List.append_assoc, List.append_assoc]
  congr 1
  rw [List.cons_append, List.singleton_append]
  congr 1
  rw [← List.replicate_succ' b' v, List.replicate_succ]

theorem initLoop2_ok (rand : ℕ → Point × Point) (b : ℕ) (hb : 1 ≤ b) :
    ∀ (c i : ℕ) (pop : List Cell),
      pop.map Cell.sickness = List.replicate i INFECTED ++ List.replicate b VULNERABLE →
      ∃ pop2, initLoop2 rand i c pop = Except.ok pop2 ∧
        pop2.map Cell.sickness =
          List.replicate (i + c) INFECTED ++ List.replicate b VULNERABLE := by
  intro c
  induction c with
  | zero =>
    intro i pop hmap
    exact ⟨pop, rfl, by simpa using hmap⟩
  | succ c ih =>
    intro i pop hmap
    have hlen : pop.length = i + b := by
      have hl := congrArg List.length hmap
      simpa using hl
    have hi : i < pop.length := by omega
    have hinf : infectAt pop i =
        Except.ok (pop.set i (pop.get ⟨i, hi⟩).contract_disease) := by
      simp [infectAt, hi]
    obtain ⟨b', rfl⟩ : ∃ b', b = b' + 1 := ⟨b - 1, by omega⟩
    have hset : ((pop.set i (pop.get ⟨i, hi⟩).contract_disease) ++
          [freshCell (rand (pop.set i (pop.get ⟨i, hi⟩).contract_disease).length)]).map
            Cell.sickness =
        List.replicate (i + 1) INFECTED ++ List.replicate (b' + 1) VULNERABLE := by
      rw [List.map_append, List.map_set, hmap,
        show (Cell.contract_disease (pop.get ⟨i, hi⟩)).sickness = INFECTED from rfl,
        show (List.map Cell.sickness [freshCell (rand (pop.set i
            (pop.get ⟨i, hi⟩).contract_disease).length)]) = [VULNERABLE] from rfl,
        layout_step (List.replicate i INFECTED) i b' (by simp) VULNERABLE INFECTED,
        ← List.replicate_succ' i INFECTED]
    obtain ⟨pop2, hrun, hmap2⟩ := ih (i + 1) _ hset
    refine ⟨pop2, ?_, ?_⟩
    · show initLoop2 rand i (c + 1) pop = Except.ok pop2
      rw [initLoop2, hinf]
      exact hrun
    · rw [show i + (c + 1) = i + 1 + c from by omega]
      exact hmap2

theorem initLoop3_ok (rand : ℕ → Point × Point) (b ninf : ℕ) (hb : 1 ≤ b) :
    ∀ (c j : ℕ) (pop : List Cell),
      pop.map Cell.sickness = List.replicate ninf INFECTED ++ List.replicate j IMMUNE ++
        List.replicate b VULNERABLE →
      ∃ pop3, initLoop3 rand ninf j c pop = Except.ok pop3 ∧
        pop3.map Cell.sickness = List.replicate ninf INFECTED ++
          List.replicate (j + c) IMMUNE ++ List.replicate b VULNERABLE := by
  intro c
  induction c with
  | zero =>
    intro j pop hmap
    exact ⟨pop, rfl, by simpa using hmap⟩
  | succ c ih =>
    intro j pop hmap
    have hlen : pop.length = ninf + j + b := by
      have hl := congrArg List.length hmap
      simp at hl
      omega
    have hi : j + ninf < pop.length := by omega
    have himm : immunizeAt pop (j + ninf) =
        Except.ok (pop.set (j + ninf) (pop.get ⟨j + ninf, hi⟩).immunize) := by
      simp [immunizeAt, hi]
    obtain ⟨b', rfl⟩ : ∃ b', b = b' + 1 := ⟨b - 1, by omega⟩
    have hset : ((pop.set (j + ninf) (pop.get ⟨j + ninf, hi⟩).immunize) ++
          [freshCell (rand (pop.set (j + ninf) (pop.get ⟨j + ninf, hi⟩).immunize).length)]).map
            Cell.sickness =
        List.replicate ninf INFECTED ++ List.replicate (j + 1) IMMUNE ++
          List.replicate (b' + 1) VULNERABLE := by
      rw [List.map_append, List.map_set, hmap,
        show ((pop.get ⟨j + ninf, hi⟩).immunize).sickness = IMMUNE from rfl,
        show (List.map Cell.sickness [freshCell (rand (pop.set (j + ninf)
            (pop.get ⟨j + ninf, hi⟩).immunize).length)]) = [VULNERABLE] from rfl,
        layout_step (List.replicate ninf INFECTED ++ List.replicate j IMMUNE)
          (j + ninf) b' (by simp; omega) VULNERABLE IMMUNE,
        List.append_assoc (List.replicate ninf INFECTED) (List.replicate j IMMUNE) [IMMUNE],
        ← List.replicate_succ' j IMMUNE]
    obtain ⟨pop3, hrun, hmap3⟩ := ih (j + 1) _ hset
    refine ⟨pop3, ?_, ?_⟩
    · show initLoop3 rand ninf j (c + 1) pop = Except.ok pop3
      rw [initLoop3, himm]
      exact hrun
    · rw [show j + (c + 1) = j + 1 + c from by omega]
      exact hmap3

/-- Successful construction: under the validation bounds plus the extra
condition `ninfected + nimmune < cells`, `Model.init` returns a population
whose sickness layout is: the first `ninfected` cells Infected, the next
`nimmune` cells Immune, the remaining `cells - ninfected - nimmune` cells
Vulnerable. -/
theorem init_ok_layout (cells ninfected nimmune : ℤ) (rand : ℕ → Point × Point)
    (h1 : 0 < ninfected) (h2 : ninfected < cells) (h3 : 0 ≤ nimmune)
    (h5 : ninfected + nimmune < cells) :
    ∃ m : Model, Model.init cells ninfected nimmune rand = Except.ok m ∧
      m.population.map Cell.sickness =
        List.replicate ninfected.toNat INFECTED ++ List.replicate nimmune.toNat IMMUNE ++
          List.replicate (cells - ninfected - nimmune).toNat VULNERABLE ∧
      m.time = 0 := by
  have hb : 1 ≤ (cells - ninfected - nimmune).toNat := by omega
  have hmap1 : (initLoop1 rand (cells - ninfected - nimmune).toNat []).map Cell.sickness =
      List.replicate 0 INFECTED ++
        List.replicate (cells - ninfected - nimmune).toNat VULNERABLE := by
    rw [initLoop1_map_sickness]
    simp
  obtain ⟨pop2, hrun2, hmap2⟩ :=
    initLoop2_ok rand (cells - ninfected - nimmune).toNat hb ninfected.toNat 0 _ hmap1
  have hmap2' : pop2.map Cell.sickness =
      List.replicate ninfected.toNat INFECTED ++ List.replicate 0 IMMUNE ++
        List.replicate (cells - ninfected - nimmune).toNat VULNERABLE := by
    simpa using hmap2
  obtain ⟨pop3, hrun3, hmap3⟩ :=
    initLoop3_ok rand (cells - ninfected - nimmune).toNat ninfected.toNat hb
      nimmune.toNat 0 pop2 hmap2'
  refine ⟨{ population := pop3, time := 0 }, ?_, by simpa using hmap3, rfl⟩
  unfold Model.init
  rw [if_neg (by omega), if_neg (by omega)]
  simp only [hrun2, hrun3]

theorem infectAt_error (pop : List Cell) (i : ℕ) (e : InitError)
    (h : infectAt pop i = Except.error e) : e = InitError.indexError := by
  unfold infectAt at h
  by_cases hi : i < pop.length
  · rw [dif_pos hi] at h
    exact absurd h (by simp)
  · rw [dif_neg hi] at h
    injection h with hh
    exact hh.symm

theorem immunizeAt_error (pop : List Cell) (i : ℕ) (e : InitError)
    (h : immunizeAt pop i = Except.error e) : e = InitError.indexError := by
  unfold immunizeAt at h
  by_cases hi : i < pop.length
  · rw [dif_pos hi] at h
    exact absurd h (by simp)
  · rw [dif_neg hi] at h
    injection h with hh
    exact hh.symm

/-- The second construction loop can only fail with an `IndexError`. -/
theorem initLoop2_error (rand : ℕ → Point × Point) :
    ∀ (c i : ℕ) (pop : List Cell) (e : InitError),
      initLoop2 rand i c pop = Except.error e → e = InitError.indexError := by
  intro c
  induction c with
  | zero =>
    intro i pop e h
    exact absurd h (by simp [initLoop2])
  | succ c ih =>
    intro i pop e h
    rw [initLoop2] at h
    cases hinf : infectAt pop i with
    | error e2 =>
      rw [hinf] at h
      have h2 : e2 = e := by simpa using h
      rw [h2] at hinf
      exact infectAt_error pop i e hinf
    | ok pop2 =>
      rw [hinf] at h
      exact ih (i + 1) _ e (by simpa using h)

/-- The third construction loop can only fail with an `IndexError`. -/
theorem initLoop3_error (rand : ℕ → Point × Point) (base : ℕ) :
    ∀ (c j : ℕ) (pop : List Cell) (e : InitError),
      initLoop3 rand base j c pop = Except.error e → e = InitError.indexError := by
  intro c
  induction c with
  | zero =>
    intro j pop e h
    exact absurd h (by simp [initLoop3])
  | succ c ih =>
    intro j pop e h
    rw [initLoop3] at h
    cases himm : immunizeAt pop (j + base) with
    | error e2 =>
      rw [himm] at h
      have h2 : e2 = e := by simpa using h
      rw [h2] at himm
      exact immunizeAt_error pop (j + base) e himm
    | ok pop2 =>
      rw [himm] at h
      exact ih (j + 1) _ e (by simpa using h)

/-- The fixed (location, direction) supply used for concrete instances. -/
def rand0 : ℕ → Point × Point :=
  fun _ => ({ x := 0, y := 0 }, { x := 0, y := 0 })

/-- Claim C1 (amended): `Model.__init__` raises `InvalidConfiguration` (the
`ValueError`) iff `ninfected <= 0`, `ninfected >= cells`, `nimmune < 0` or
`nimmune >= cells`, and it does so for every random supply, before any cell
is constructed.  However, passing those checks does not guarantee error-free
construction: it completes without runtime error when additionally
`ninfected + nimmune < cells`, and raises an `IndexError` (from
`self.population[i]` in the second loop) whenever the checks pass but
`ninfected + nimmune >= cells`. -/
theorem init_validation (cells ninfected nimmune : ℤ) (rand : ℕ → Point × Point) :
    ((∃ msg, Model.init cells ninfected nimmune rand =
        Except.error (InitError.invalidConfig msg)) ↔
      (ninfected ≤ 0 ∨ cells ≤ ninfected ∨ nimmune < 0 ∨ cells ≤ nimmune)) ∧
    (0 < ninfected → ninfected < cells → 0 ≤ nimmune → nimmune < cells →
      ninfected + nimmune < cells →
      ∃ m, Model.init cells ninfected nimmune rand = Except.ok m) ∧
    (0 < ninfected → ninfected < cells → 0 ≤ nimmune → nimmune < cells →
      cells ≤ ninfected + nimmune →
      Model.init cells ninfected nimmune rand = Except.error InitError.indexError) := by
  refine ⟨⟨?_, ?_⟩, ?_, ?_⟩
  · rintro ⟨msg, hmsg⟩
    by_contra hbad
    push_neg at hbad
    obtain ⟨hb1, hb2, hb3, hb4⟩ := hbad
    unfold Model.init at hmsg
    rw [if_neg (by omega), if_neg (by omega)] at hmsg
    cases h2 : initLoop2 rand 0 ninfected.toNat
        (initLoop1 rand (cells - ninfected - nimmune).toNat []) with
    | error e2 =>
      rw [h2] at hmsg
      have he : e2 = InitError.invalidConfig msg := by simpa using hmsg
      have hi := initLoop2_error rand ninfected.toNat 0 _ e2 h2
      rw [he] at hi
      exact absurd hi (by simp)
    | ok pop2 =>
      rw [h2] at hmsg
      simp only [] at hmsg
      cases h3 : initLoop3 rand ninfected.toNat 0 nimmune.toNat pop2 with
      | error e3 =>
        rw [h3] at hmsg
        have he : e3 = InitError.invalidConfig msg := by simpa using hmsg
        have hi := initLoop3_error rand ninfected.toNat nimmune.toNat 0 pop2 e3 h3
        rw [he] at hi
        exact absurd hi (by simp)
      | ok pop3 =>
        rw [h3] at hmsg
        exact absurd hmsg (by simp)
  · intro hbad
    unfold Model.init
    by_cases hc1 : cells ≤ ninfected ∨ ninfected ≤ 0
    · rw [if_pos hc1]
      exact ⟨_, rfl⟩
    · have hc2 : cells ≤ nimmune ∨ nimmune < 0 := by omega
      rw [if_neg hc1, if_pos hc2]
      exact ⟨_, rfl⟩
  · intro h1 h2 h3 h4 h5
    obtain ⟨m, hm, _, _⟩ := init_ok_layout cells ninfected nimmune rand h1 h2 h3 h5
    exact ⟨m, hm⟩
  · intro h1 h2 h3 h4 h5
    unfold Model.init
    rw [if_neg (by omega), if_neg (by omega),
      show (cells - ninfected - nimmune).toNat = 0 from by omega]
    obtain ⟨k, hk⟩ : ∃ k, ninfected.toNat = k + 1 := ⟨ninfected.toNat - 1, by omega⟩
    rw [hk]
    simp [initLoop1, initLoop2, infectAt]

/-- Witness for `init_validation`: a concrete valid configuration (30 cells,
2 infected, 3 immune) constructs successfully. -/
theorem init_validation_witness :
    ∃ m, Model.init 30 2 3 rand0 = Except.ok m :=
  (init_validation 30 2 3 rand0).2.1 (by decide) (by decide) (by decide) (by decide) (by decide)

/-- Counterexample to claim C1 as stated: with `cells = 3`, `ninfected = 2`,
`nimmune = 2` both validation bounds are satisfied (so no
`InvalidConfiguration` is raised), yet construction does not complete — it
fails with an `IndexError` in the second loop, because the first loop
appended `cells - ninfected - nimmune < 1` cells and `self.population[0]`
is out of range. -/
theorem init_runtime_error_counterexample :
    (0 < (2 : ℤ) ∧ (2 : ℤ) < 3 ∧ 0 ≤ (2 : ℤ) ∧ (2 : ℤ) < 3) ∧
    Model.init 3 2 2 rand0 = Except.error InitError.indexError :=
  ⟨by decide, rfl⟩

/-- Claim C4 (amended): whenever `0 < ninfected < cells`,
`0 ≤ nimmune < cells` and additionally `ninfected + nimmune < cells`, the
constructed population consists of exactly `cells` cells, of which exactly
`ninfected` are infected, exactly `nimmune` are immune, and the remaining
`cells - ninfected - nimmune` are vulnerable.  (Without the additional
condition construction fails with an `IndexError`; see
`population_counts_counterexample`.) -/
theorem population_counts (cells ninfected nimmune : ℤ) (rand : ℕ → Point × Point)
    (h1 : 0 < ninfected) (h2 : ninfected < cells) (h3 : 0 ≤ nimmune) (h4 : nimmune < cells)
    (h5 : ninfected + nimmune < cells) :
    ∃ m : Model, Model.init cells ninfected nimmune rand = Except.ok m ∧
      m.population.length = cells.toNat ∧
      m.population.countP Cell.is_infected = ninfected.toNat ∧
      m.population.countP Cell.is_immune = nimmune.toNat ∧
      m.population.countP Cell.is_vulnerable = (cells - ninfected - nimmune).toNat := by
  obtain ⟨m, hm, hmap, _⟩ := init_ok_layout cells ninfected nimmune rand h1 h2 h3 h5
  have hcount : ∀ p : ℤ → Bool,
      m.population.countP (fun c => p c.sickness) =
        (if p INFECTED then ninfected.toNat else 0) +
          (if p IMMUNE then nimmune.toNat else 0) +
          (if p VULNERABLE then (cells - ninfected - nimmune).toNat else 0) := by
    intro p
    have hc : m.population.countP (fun c => p c.sickness) =
        (m.population.map Cell.sickness).countP p := by
      rw [List.countP_map]
      rfl
    rw [hc, hmap, List.countP_append, List.countP_append, List.countP_replicate,
      List.countP_replicate, List.countP_replicate]
  refine ⟨m, hm, ?_, ?_, ?_, ?_⟩
  · have hl := congrArg List.length hmap
    simp at hl
    omega
  · have h := hcount (fun s => decide (INFECTED ≤ s))
    rw [show (fun c : Cell => decide (INFECTED ≤ c.sickness)) = Cell.is_infected from rfl] at h
    rw [h, if_pos (by decide), if_neg (by decide), if_neg (by decide)]
    omega
  · have h := hcount (fun s => decide (s = IMMUNE))
    rw [show (fun c : Cell => decide (c.sickness = IMMUNE)) = Cell.is_immune from rfl] at h
    rw [h, if_neg (by decide), if_pos (by decide), if_neg (by decide)]
    omega
  · have h := hcount (fun s => decide (s = VULNERABLE))
    rw [show (fun c : Cell => decide (c.sickness = VULNERABLE)) = Cell.is_vulnerable from rfl] at h
    rw [h, if_neg (by decide), if_neg (by decide), if_pos (by decide)]
    omega

/-- Witness for `population_counts` at a concrete valid configuration. -/
theorem population_counts_witness :
    ∃ m : Model, Model.init 5 1 1 rand0 = Except.ok m ∧
      m.population.length = (5 : ℤ).toNat ∧
      m.population.countP Cell.is_infected = (1 : ℤ).toNat ∧
      m.population.countP Cell.is_immune = (1 : ℤ).toNat ∧
      m.population.countP Cell.is_vulnerable = ((5 : ℤ) - 1 - 1).toNat :=
  population_counts 5 1 1 rand0 (by decide) (by decide) (by decide) (by decide) (by decide)

/-- Counterexample to claim C4 as stated: `cells = 3`, `ninfected = 1`,
`nimmune = 2` satisfies `0 < ninfected < cells` and `0 ≤ nimmune < cells`,
yet no population of 3 cells is produced — construction fails with an
`IndexError`. -/
theorem population_counts_counterexample :
    (0 < (1 : ℤ) ∧ (1 : ℤ) < 3 ∧ 0 ≤ (2 : ℤ) ∧ (2 : ℤ) < 3) ∧
    Model.init 3 1 2 rand0 = Except.error InitError.indexError :=
  ⟨by decide, rfl⟩

end CellSim
